import Mathlib

/-!
Verification of the NEO-M8 GPS driver (src/gps_driver.py, with the variant
src/gps_reading_data_ubx_commands_setbaud_not_working.py).

The driver is shallowly embedded: byte strings become List Nat, decoded text
becomes List Char, Python float values become exact fractions (an integer
numerator over a natural denominator, interpreted in the rationals by
Frac.val), dictionary lookups become Option fields of a Cache structure, and
an uncaught Python exception becomes the Option value none.  Wall-clock time
in the acknowledgment wait is abstracted as the list of byte chunks read
before the one-second deadline elapses.
-/

namespace GPS

/-- Python index normalisation for slicing: a negative index counts from the
end of the list; results are clamped to the bounds. -/
def pyIdx (len : Nat) (i : Int) : Nat :=
  if i < 0 then ((len : Int) + i).toNat else min i.toNat len

/-- Python slice l[a:b] with possibly negative bounds. -/
def pyslice {α : Type} (l : List α) (a b : Int) : List α :=
  (l.take (pyIdx l.length b)).drop (pyIdx l.length a)

/-- Index of the first occurrence of a in l; none models the -1 result of
the Python find method for a single-element pattern. -/
def findIdx1 {α : Type} [DecidableEq α] (a : α) : List α → Option Nat
  | [] => none
  | x :: xs => if x = a then some 0 else (findIdx1 a xs).map (· + 1)

/-- Python bytes.find(byte, start): first index at or after start. -/
def findFrom (a : Nat) (l : List Nat) (s : Nat) : Option Nat :=
  (findIdx1 a (l.drop s)).map (· + s)

/-- Whether l starts with the pattern pat. -/
def swl : List Nat → List Nat → Bool
  | [], _ => true
  | _ :: _, [] => false
  | p :: ps, x :: xs => if p = x then swl ps xs else false

/-- Whether pat occurs contiguously inside l; this models the test
bytes.find(pat) != -1 used on the acknowledgment stream. -/
def hasSub (pat : List Nat) : List Nat → Bool
  | [] => swl pat []
  | x :: xs => swl pat (x :: xs) || hasSub pat xs

/-- ASCII code of one uppercase hexadecimal digit. -/
def hexDig (n : Nat) : Nat := if n < 10 then 48 + n else 55 + n

/-- ASCII bytes of the Python format "%02X" applied to a byte value: the
XOR accumulator of the NMEA checksum never exceeds 255, so the result is
always exactly two uppercase hexadecimal digits. -/
def hex2 (n : Nat) : List Nat := [hexDig (n / 16), hexDig (n % 16)]

/-- Embedding of GPSReceive._checksum (src/gps_driver.py lines 31-42):
locate the first asterisk (byte 42), XOR the bytes strictly between the
leading marker and the asterisk position (a Python slice, so a missing
asterisk gives position -1 and the slice wraps), format the accumulator as
two uppercase hex digits, and compare them with the two bytes following the
asterisk position. -/
def checksum_nmea (s : List Nat) : Bool :=
  let cpos : Int := match findIdx1 42 s with | none => -1 | some i => (i : Int)
  let stripped := pyslice s 1 cpos
  let ck := stripped.foldl (fun a b => a ^^^ b) 0
  if pyslice s (cpos + 1) (cpos + 3) = hex2 ck then true else false

/-- Exact fraction standing for a Python float value produced by the
decoder: numerator over denominator, not necessarily reduced. -/
structure Frac where
  num : Int
  den : Nat
deriving DecidableEq

/-- Rational value of a fraction. -/
def Frac.val (f : Frac) : ℚ := (f.num : ℚ) / (f.den : ℚ)

/-- Sum of two fractions. -/
def Frac.add (a b : Frac) : Frac :=
  ⟨a.num * (b.den : Int) + b.num * (a.den : Int), a.den * b.den⟩

/-- Product of two fractions. -/
def Frac.mul (a b : Frac) : Frac := ⟨a.num * b.num, a.den * b.den⟩

/-- Negation of a fraction, modelling multiplication by -1. -/
def Frac.neg (a : Frac) : Frac := ⟨-a.num, a.den⟩

/-- Division of a fraction by a natural constant. -/
def Frac.divN (a : Frac) (n : Nat) : Frac := ⟨a.num, a.den * n⟩

/-- Fraction with integer value. -/
def Frac.ofInt (n : Int) : Frac := ⟨n, 1⟩

/-- Python str.split(",") on a list of characters. -/
def splitComma : List Char → List (List Char)
  | [] => [[]]
  | c :: rest =>
    if c = ',' then [] :: splitComma rest
    else match splitComma rest with
      | f :: fs => (c :: f) :: fs
      | [] => [[c]]

/-- Timestamp slot of the decoded records: the Python value is either the
integer 0 (no data) or a string. -/
inductive TSVal where
  | num0 : TSVal
  | str : List Char → TSVal
deriving DecidableEq

/-- Python truthiness of a timestamp slot: 0 and the empty string are
falsy. -/
def tsTruthy : TSVal → Bool
  | .num0 => false
  | .str s => !s.isEmpty

/-- Formatting of the HHMMSS[.sss] time-of-day field:
time_utc[:2] + ":" + time_utc[2:4] + ":" + time_utc[4:]. -/
def fmtTime (t : List Char) : List Char :=
  pyslice t 0 2 ++ (':' :: (pyslice t 2 4 ++ (':' :: pyslice t 4 (t.length : Int))))

/-- Timestamp produced from a raw time field: the empty field gives the
integer 0, otherwise the formatted string. -/
def tsOf (t : List Char) : TSVal :=
  if t = [] then TSVal.num0 else TSVal.str (fmtTime t)

/-- Numeric value of a decimal digit character; none for other
characters. -/
def digToNat (c : Char) : Option Nat :=
  if 48 ≤ c.toNat ∧ c.toNat ≤ 57 then some (c.toNat - 48) else none

/-- Value of a non-empty all-digit string; none models the ValueError of
Python int() on anything else (signs and spaces are not produced by the
receiver and are not modelled). -/
def parseDigits (l : List Char) : Option Nat :=
  if l = [] then none
  else l.foldl (fun acc c => acc.bind fun n => (digToNat c).map fun d => n * 10 + d)
    (some 0)

/-- Value of a plain decimal string, modelling Python float() on the digit
strings emitted by the receiver; none models a ValueError. -/
def parseDec (l : List Char) : Option Frac :=
  match findIdx1 '.' l with
  | none => (parseDigits l).map fun n => Frac.ofInt (n : Int)
  | some i =>
    let ip := l.take i
    let fp := l.drop (i + 1)
    if ('.' ∈ fp) ∨ (ip = [] ∧ fp = []) then none
    else do
      let a ← if ip = [] then some 0 else parseDigits ip
      let b ← if fp = [] then some 0 else parseDigits fp
      some ⟨(a : Int) * (10 ^ fp.length : Nat) + (b : Int), 10 ^ fp.length⟩

/-- Degrees-and-minutes conversion used on fields 1 and 3 of the GLL
sentence (src/gps_driver.py lines 130-132): the decimal point is located
with find (-1 when absent), minutes are the float value of the slice from
two characters before it, degrees the int value of the slice up to there,
and the result is degrees + minutes / 60. -/
def degMin (f : List Char) : Option Frac :=
  let pm : Int := (match findIdx1 '.' f with | none => -1 | some i => (i : Int)) - 2
  do
    let minutes ← parseDec (pyslice f pm (f.length : Int))
    let degrees ← (parseDigits (pyslice f 0 pm)).map fun n => Frac.ofInt (n : Int)
    some (degrees.add (minutes.divN 60))

/-- Sentence cache self.data, keyed by the three-character sentence kind;
a field is none when no sentence of that kind was ever cached (a Python
KeyError on lookup). -/
structure Cache where
  gll : Option (List Char)
  gsa : Option (List Char)
  gga : Option (List Char)
  rmc : Option (List Char)

/-- Embedding of GPSReceive.position (src/gps_driver.py lines 98-153) on a
cache snapshot; none models an uncaught exception (an IndexError on a short
sentence or a ValueError from float()).  Note that the latitude sign is
driven by comparing field 2 with the letter E and the longitude sign by
comparing field 4 with the letter N, exactly as in the source. -/
def position (c : Cache) : Option (Frac × Frac × Frac × TSVal) :=
  match c.gll with
  | none => some (Frac.ofInt 0, Frac.ofInt 0, Frac.ofInt 0, TSVal.num0)
  | some g =>
    let fs := splitComma g
    do
      let timeUtc ← fs.get? 5
      let ts := tsOf timeUtc
      match c.gsa with
      | none => some (Frac.ofInt 0, Frac.ofInt 0, Frac.ofInt 0, ts)
      | some gs => do
        let gfs := splitComma gs
        let f6 ← fs.get? 6
        if f6 = "A".toList then do
          let f1 ← fs.get? 1
          let m1 ← degMin f1
          let f2 ← fs.get? 2
          let lat := if f2 = "E".toList then m1 else m1.neg
          let f3 ← fs.get? 3
          let m3 ← degMin f3
          let f4 ← fs.get? 4
          let lng := if f4 = "N".toList then m3 else m3.neg
          let hs ← if gfs.length < 3 then none else gfs.get? (gfs.length - 3)
          let hdop ← parseDec hs
          some (lat, lng, hdop.mul ⟨25, 10⟩, ts)
        else some (Frac.ofInt 0, Frac.ofInt 0, Frac.ofInt 0, ts)

/-- Result shape of GPSReceive.velocity (src/gps_driver.py lines 155-190):
the KeyError branch returns a 4-tuple of zeros while every other branch
returns a 3-tuple (speed, course, timestamp). -/
inductive VelRes where
  | quad : VelRes
  | tri : TSVal → TSVal → TSVal → VelRes
deriving DecidableEq

/-- Embedding of GPSReceive.velocity on a cache snapshot; none models an
uncaught IndexError on a short sentence. -/
def velocity (c : Cache) : Option VelRes :=
  match c.rmc with
  | none => some VelRes.quad
  | some r =>
    let fs := splitComma r
    do
      let timeUtc ← fs.get? 1
      let ts := tsOf timeUtc
      let f2 ← fs.get? 2
      if f2 = "A".toList then do
        let f7 ← fs.get? 7
        let sog := TSVal.str (f7 ++ "Kn".toList)
        let f8 ← fs.get? 8
        let cog := if f8 ≠ [] then TSVal.str (f8 ++ "°".toList)
          else TSVal.str "N/A".toList
        some (VelRes.tri sog cog ts)
      else some (VelRes.tri TSVal.num0 TSVal.num0 ts)

/-- Embedding of GPSReceive.altitude (src/gps_driver.py lines 192-234) on a
cache snapshot; none models an uncaught exception. -/
def altitude (c : Cache) : Option (Frac × Frac × Frac × TSVal) :=
  match c.gga with
  | none => some (Frac.ofInt 0, Frac.ofInt 0, Frac.ofInt 0, TSVal.num0)
  | some g =>
    let fs := splitComma g
    do
      let timeUtc ← fs.get? 1
      let ts := tsOf timeUtc
      match c.gsa with
      | none => some (Frac.ofInt 0, Frac.ofInt 0, Frac.ofInt 0, ts)
      | some gs => do
        let gfs := splitComma gs
        let f6 ← fs.get? 6
        if f6 ≠ "0".toList then do
          let altS ← fs.get? 9
          let geoS ← fs.get? 11
          let vs ← if gfs.length < 2 then (none : Option (List Char))
            else gfs.get? (gfs.length - 2)
          let vdop ← parseDec vs
          let a ← parseDec altS
          let ge ← parseDec geoS
          some (a, ge, vdop.mul ⟨5, 1⟩, ts)
        else some (Frac.ofInt 0, Frac.ofInt 0, Frac.ofInt 0, ts)

/-- Nine-value result tuple of GPSReceive.getdata. -/
structure GDRes where
  lat : Frac
  lng : Frac
  perr : Frac
  alt : Frac
  verr : Frac
  sog : TSVal
  cog : TSVal
  geo : Frac
  ts : TSVal
deriving DecidableEq

/-- Embedding of GPSReceive.getdata (src/gps_driver.py lines 236-264):
position is unpacked into four variables, velocity into three and altitude
into four; the timestamp is the first truthy one of the three.  The
velocity KeyError branch returns a 4-tuple, whose unpacking into three
variables raises a ValueError, modelled as none. -/
def getdata (c : Cache) : Option GDRes := do
  let (lat, lng, perr, t0) ← position c
  let v ← velocity c
  match v with
  | .quad => none
  | .tri sog cog t1 => do
    let (alt, geo, verr, t2) ← altitude c
    let ts := if tsTruthy t0 then t0
      else if tsTruthy t1 then t1
      else if tsTruthy t2 then t2
      else TSVal.num0
    some ⟨lat, lng, perr, alt, verr, sog, cog, geo, ts⟩

/-- Example GLL sentence from the specification. -/
def exGLL : List Char := "$GNGLL,5321.6729,N,00630.8302,W,092750.00,A,A*68".toList

/-- Example GSA sentence giving the dilution-of-precision fields. -/
def exGSA : List Char := "$GNGSA,A,3,1.72,0.98,1.42*18".toList

/-- Example GGA sentence. -/
def exGGA : List Char :=
  "$GNGGA,092750.00,5321.6729,N,00630.8302,W,1,08,1.01,499.6,M,48.0,M,,*5B".toList

/-- Embedding of GPSReceive.update_buffer (src/gps_driver.py lines 56-68)
on the branch where the transport has bytes available: the read bytes are
appended and the buffer is cut back to its newest 512 bytes. -/
def update_buffer (buf new : List Nat) : List Nat :=
  if 512 < (buf ++ new).length then
    (buf ++ new).drop ((buf ++ new).length - 512)
  else buf ++ new

/-- One extraction step of GPSReceive._update_data (src/gps_driver.py lines
79-86): find the first dollar byte (36), then the first newline byte (10)
at or after it; if either is missing the buffer is left unchanged and
nothing is returned, otherwise the span through the newline is returned and
everything up to and including it is removed. -/
def extractStep (buf : List Nat) : Option (List Nat) × List Nat :=
  match findFrom 36 buf 0 with
  | none => (none, buf)
  | some s =>
    match findFrom 10 buf s with
    | none => (none, buf)
    | some e => (some ((buf.drop s).take (e + 1 - s)), buf.drop (e + 1))

/-- Well-formed framed sentence: starts with the dollar byte, ends with the
newline byte, and contains no interior newline. -/
def WFS (s : List Nat) : Prop :=
  s.head? = some 36 ∧ s.getLast? = some 10 ∧ 10 ∉ s.dropLast

/-- Embedding of GPSReceive._ubx_checksum (src/gps_driver.py lines 44-54):
two additive accumulators over the packet bytes, masked to one byte at the
end. -/
def ubx_ck (l : List Nat) : Nat × Nat :=
  let p := l.foldl (fun ab x => (ab.1 + x, ab.2 + ab.1 + x)) ((0, 0) : Nat × Nat)
  (p.1 % 256, p.2 % 256)

/-- Sum of the successive partial sums of a list: the value accumulated by
the second checksum register before masking. -/
def psumL : List Nat → Nat
  | [] => 0
  | x :: xs => (xs.length + 1) * x + psumL xs

/-- Little-endian two-byte encoding, modelling struct.pack of an unsigned
16-bit value. -/
def le16 (n : Nat) : List Nat := [n % 256, n / 256 % 256]

/-- Hardcoded UBX-CFG-MSG packet disabling the VTG sentence
(src/gps_driver.py line 365), checksum bytes included literally. -/
def vtgPacket : List Nat := [181, 98, 6, 1, 3, 0, 240, 5, 0, 255, 25]

/-- Class/id, length and payload section of the hardcoded VTG packet. -/
def vtgBody : List Nat := [6, 1, 3, 0, 240, 5, 0]

/-- Checksum input of the UBX-CFG-RST stop packet (lines 291-294). -/
def stopBody : List Nat := [6, 4, 4, 0, 0, 0, 8, 0]

/-- Packet built by GPSReceive.gnss_stop. -/
def gnss_stop_packet : List Nat :=
  let packet := stopBody
  let ck := ubx_ck packet
  [181, 98] ++ (packet ++ [ck.1, ck.2])

/-- Checksum input of the UBX-CFG-RST start packet (lines 304-307). -/
def startBody : List Nat := [6, 4, 4, 0, 0, 0, 9, 0]

/-- Packet built by GPSReceive.gnss_start. -/
def gnss_start_packet : List Nat :=
  let packet := startBody
  let ck := ubx_ck packet
  [181, 98] ++ (packet ++ [ck.1, ck.2])

/-- Checksum input of the UBX-CFG-RATE packet built by GPSReceive.setrate
(lines 321-326): class/id, little-endian length 6, measurement interval
1000/rate truncated, measurements per solution, and time reference. -/
def setrateBody (rate mps : Nat) : List Nat :=
  [6, 8, 6, 0] ++ le16 (1000 / rate) ++ le16 mps ++ [0, 0]

/-- Packet built by GPSReceive.setrate (lines 326-332). -/
def setrate_packet (rate mps : Nat) : List Nat :=
  let packet := setrateBody rate mps
  let ck := ubx_ck packet
  [181, 98] ++ (packet ++ [ck.1, ck.2])

/-- Checksum input of the UBX-CFG-NAV5 packet (line 380). -/
def nav5Body : List Nat :=
  [6, 36, 36, 0, 71, 8, 8, 2, 0, 0, 0, 0, 0, 0, 0, 0, 20, 0, 0, 0,
   0, 0, 0, 0, 0, 0, 20, 0, 0, 0, 0, 1, 0, 0, 0, 0, 0, 0, 0, 0]

/-- UBX-CFG-NAV5 packet as built in modulesetup (lines 380-383). -/
def nav5_packet : List Nat :=
  let packet := nav5Body
  let ck := ubx_ck packet
  [181, 98] ++ (packet ++ [ck.1, ck.2])

/-- Checksum input of the UBX-CFG-NAVX5 packet (line 400). -/
def navx5Body : List Nat :=
  [6, 35, 40, 0, 0, 0, 68, 64, 0, 0, 0, 0, 0, 0, 4, 60, 0, 0, 1, 0,
   0, 0, 0, 0, 0, 0, 0, 0, 0, 0, 1, 0, 0, 20, 0, 0, 0, 0, 0, 0, 0, 0, 0, 0]

/-- UBX-CFG-NAVX5 packet as built in modulesetup (lines 400-403). -/
def navx5_packet : List Nat :=
  let packet := navx5Body
  let ck := ubx_ck packet
  [181, 98] ++ (packet ++ [ck.1, ck.2])

/-- Checksum input of the UBX-CFG-GNSS packet (line 418). -/
def gnssBody : List Nat :=
  [6, 62, 44, 0, 0, 0, 255, 5,
   0, 8, 16, 0, 0, 1, 0, 1,
   1, 1, 3, 0, 0, 1, 0, 1,
   2, 2, 8, 0, 0, 1, 0, 1,
   3, 8, 14, 0, 0, 1, 0, 1,
   6, 6, 14, 0, 0, 1, 0, 1]

/-- UBX-CFG-GNSS packet as built in modulesetup (lines 418-421). -/
def gnss_packet : List Nat :=
  let packet := gnssBody
  let ck := ubx_ck packet
  [181, 98] ++ (packet ++ [ck.1, ck.2])

/-- Checksum input of the UBX-CFG-ITFM packet (line 440). -/
def itfmBody : List Nat := [6, 57, 8, 0, 173, 98, 173, 71, 0, 0, 35, 30]

/-- UBX-CFG-ITFM packet as built in modulesetup (lines 440-443). -/
def itfm_packet : List Nat :=
  let packet := itfmBody
  let ck := ubx_ck packet
  [181, 98] ++ (packet ++ [ck.1, ck.2])

/-- Checksum input of the UBX-CFG-CFG save packet (line 460). -/
def saveBody : List Nat :=
  [6, 9, 13, 0, 0, 0, 0, 0, 0, 0, 0, 26, 0, 0, 0, 0, 2]

/-- UBX-CFG-CFG save packet as built in modulesetup (lines 460-463). -/
def save_packet : List Nat :=
  let packet := saveBody
  let ck := ubx_ck packet
  [181, 98] ++ (packet ++ [ck.1, ck.2])

/-- Checksum input of the final UBX-CFG-RST reset packet (line 479). -/
def rstBody : List Nat := [6, 4, 4, 0, 255, 255, 0, 0]

/-- Final UBX-CFG-RST packet as built in modulesetup (lines 479-482). -/
def rst_packet : List Nat :=
  let packet := rstBody
  let ck := ubx_ck packet
  [181, 98] ++ (packet ++ [ck.1, ck.2])

/-- Acknowledgment marker searched for by GPSReceive._ubx_ack_nack. -/
def ackPat : List Nat := [181, 98, 5, 1]

/-- Negative-acknowledgment marker searched for by _ubx_ack_nack. -/
def nackPat : List Nat := [181, 98, 5, 0]

/-- Embedding of GPSReceive._ubx_ack_nack (src/gps_driver.py lines
266-281): chunks are the byte groups read before the one-second deadline;
each is appended to the private accumulator, which is then searched for the
ack marker and, failing that, the nack marker; exhausting the chunks models
the timeout. -/
def ubx_ack_nack : List (List Nat) → List Nat → Option Bool
  | [], _ => none
  | ch :: rest, acc =>
    let acc2 := acc ++ ch
    if hasSub ackPat acc2 then some true
    else if hasSub nackPat acc2 then some false
    else ubx_ack_nack rest acc2

/-- Bytes accumulated after reading chunk i (chunks 0 through i joined). -/
def joinTake (chunks : List (List Nat)) (i : Nat) : List Nat :=
  List.flatten (chunks.take (i + 1))

/-- Python truthiness test under the not operator applied to the tri-state
flag: not None and not False are both true; not True is false. -/
def pyNot : Option Bool → Bool
  | some true => false
  | _ => true

/-- Retry loop of one configuration step in GPSReceive.modulesetup
(src/gps_driver.py lines 363-374): while the flag is not truthy and fewer
than 5 retries have happened, wait, count a retry, write the packet again
and wait for another acknowledgment.  The argument acks gives the ack-wait
outcome observed after the k-th write (0-based); the fuel equals the
remaining possible iterations, and the result is the final flag, retry
counter and total number of writes. -/
def stepLoop (acks : Nat → Option Bool) :
    Option Bool → Nat → Nat → Nat → Option Bool × Nat × Nat
  | flag, count, writes, 0 => (flag, count, writes)
  | flag, count, writes, fuel + 1 =>
    if pyNot flag = true ∧ count < 5 then
      stepLoop acks (acks writes) (count + 1) (writes + 1) fuel
    else (flag, count, writes)

/-- One whole configuration step of modulesetup: the initial write and
ack-wait followed by the retry loop, which can iterate at most 5 times. -/
def stepRun (acks : Nat → Option Bool) : Option Bool × Nat × Nat :=
  stepLoop acks (acks 0) 0 1 5

/-- Failure test performed after the loop: if count == 5 and not flag,
modulesetup abandons the sequence. -/
def stepFails (r : Option Bool × Nat × Nat) : Bool :=
  decide (r.2.1 = 5) && pyNot r.1

/-- A successful find returns an index inside the list. -/
theorem findIdx1_lt_length {α : Type} [DecidableEq α] {a : α} {l : List α} {i : Nat}
    (h : findIdx1 a l = some i) : i < l.length := by
  induction l generalizing i with
  | nil => simp [findIdx1] at h
  | cons x xs ih =>
    by_cases hx : x = a
    · simp [findIdx1, hx] at h
      simp only [List.length_cons]
      omega
    · simp [findIdx1, hx] at h
      obtain ⟨j, hj, rfl⟩ := h
      have := ih hj
      simp only [List.length_cons]
      omega

/-- The find fails exactly when the element is absent. -/
theorem findIdx1_eq_none {α : Type} [DecidableEq α] (a : α) (l : List α) :
    findIdx1 a l = none ↔ a ∉ l := by
  induction l with
  | nil => simp [findIdx1]
  | cons x xs ih =>
    by_cases hx : x = a
    · simp [findIdx1, hx]
    · simp [findIdx1, hx, ih, Ne.symm hx]

/-- Finding past elements that do not match shifts the index. -/
theorem findIdx1_append_of_not_mem {α : Type} [DecidableEq α] {a : α} {l : List α}
    (r : List α) (h : a ∉ l) :
    findIdx1 a (l ++ r) = (findIdx1 a r).map (· + l.length) := by
  induction l with
  | nil =>
    simp only [List.nil_append, List.length_nil]
    cases hr : findIdx1 a r <;> simp [hr]
  | cons x xs ih =>
    have hx : x ≠ a := by
      intro e
      exact h (e ▸ List.mem_cons_self x xs)
    have hm : a ∉ xs := fun m => h (List.mem_cons_of_mem x m)
    show (if x = a then some 0 else (findIdx1 a (xs ++ r)).map (· + 1))
      = (findIdx1 a r).map (· + (x :: xs).length)
    rw [if_neg hx, ih hm]
    cases hr : findIdx1 a r
    · simp [hr]
    · simp [hr]
      omega

/-- The length of one retry loop never exceeds its write budget. -/
theorem stepLoop_writes_le (acks : Nat → Option Bool) :
    ∀ (fuel : Nat) (flag : Option Bool) (count writes : Nat),
      (stepLoop acks flag count writes fuel).2.2 ≤ writes + fuel := by
  intro fuel
  induction fuel with
  | zero => intro flag count writes; simp [stepLoop]
  | succ n ih =>
    intro flag count writes
    simp only [stepLoop]
    split
    · exact (ih _ _ _).trans (by omega)
    · simp

/-- C2 (amended): a configuration step of modulesetup whose ack-waits all
return Unknown performs one initial transport write plus 5 retry writes, 6
writes and 6 attempts in total (not 5), ends with the failure condition
count == 5 and not flag satisfied, and no run of the step ever performs
more than 6 writes. -/
theorem c2_amended :
    (∀ acks : Nat → Option Bool, (∀ k, acks k = none) →
        stepRun acks = (none, 5, 6) ∧ stepFails (stepRun acks) = true)
    ∧ (∀ acks : Nat → Option Bool, (stepRun acks).2.2 ≤ 6) := by
  constructor
  · intro acks h
    have e : acks = fun _ => none := funext h
    subst e
    exact ⟨by decide, by decide⟩
  · intro acks
    have h := stepLoop_writes_le acks 5 (acks 0) 0 1
    simpa [stepRun] using h

/-- C2 witness: the amended theorem applied to the all-Unknown outcome
sequence. -/
theorem c2_amended_witness : stepRun (fun _ => none) = (none, 5, 6) :=
  (c2_amended.1 (fun _ => none) (fun _ => rfl)).1

/-- C2 counterexample: with every ack-wait returning Unknown the step
performs 6 transport writes, not the 5 stated in the claim. -/
theorem c2_counterexample :
    stepRun (fun _ => none) = (none, 5, 6)
    ∧ ¬((stepRun (fun _ => none)).2.2 = 5) := by decide

/-- C3 (amended): a NegativeAcknowledged outcome does not terminate a
configuration step: the loop condition treats False like None, so a NACK
triggers a retry exactly as Unknown does; with persistent NACKs the step
performs all 6 writes and ends in failure, and only an Acknowledged outcome
stops the step immediately after one write. -/
theorem c3_amended :
    (∀ acks : Nat → Option Bool, (∀ k, acks k = some false) →
        stepRun acks = (some false, 5, 6) ∧ stepFails (stepRun acks) = true)
    ∧ (∀ acks : Nat → Option Bool, acks 0 = some true →
        stepRun acks = (some true, 0, 1)) := by
  constructor
  · intro acks h
    have e : acks = fun _ => some false := funext h
    subst e
    exact ⟨by decide, by decide⟩
  · intro acks h
    unfold stepRun
    rw [h]
    rfl

/-- C3 witness: the amended theorem applied to the all-NACK outcome
sequence. -/
theorem c3_amended_witness : stepRun (fun _ => some false) = (some false, 5, 6) :=
  (c3_amended.1 (fun _ => some false) (fun _ => rfl)).1

/-- C3 counterexample: after a NACK on the first ack-wait the step writes
again (2 writes, not 1) and, the retry being acknowledged, even ends in
success, contradicting the claimed immediate failure with no further send
attempts. -/
theorem c3_counterexample :
    stepRun (fun k => if k = 0 then some false else some true) = (some true, 1, 2)
    ∧ ¬((stepRun (fun k => if k = 0 then some false else some true)).2.2 = 1) := by
  decide

/-- C5 counterexample: on the two bytes of the string 00, which contain no
asterisk delimiter, the checksum test compares the wrapped-around slice
with the hex digits of the empty XOR and returns true, so the absent
delimiter does not fail closed. -/
theorem c5_counterexample :
    checksum_nmea [48, 48] = true ∧ findIdx1 42 [48, 48] = none := by decide

/-- C5 (amended): the checksum test is total, returning a boolean on every
byte string; when the asterisk is present but followed by fewer than two
bytes the comparison fails and the result is false; when the asterisk is
absent the wrapped slice comparison still returns a boolean but is not
always false. -/
theorem c5_amended :
    (∀ s : List Nat, checksum_nmea s = true ∨ checksum_nmea s = false)
    ∧ (∀ (s : List Nat) (i : Nat), findIdx1 42 s = some i → s.length < i + 3 →
        checksum_nmea s = false) := by
  constructor
  · intro s
    cases h : checksum_nmea s
    · right; rfl
    · left; rfl
  · intro s i h hlen
    have hi : i < s.length := findIdx1_lt_length h
    have hlen2 : (pyslice s ((i : Int) + 1) ((i : Int) + 3)).length < 2 := by
      unfold pyslice pyIdx
      split_ifs <;> simp only [List.length_drop, List.length_take] <;> omega
    have hne : ∀ m : Nat, pyslice s ((i : Int) + 1) ((i : Int) + 3) ≠ hex2 m := by
      intro m hEq
      rw [hEq] at hlen2
      simp [hex2] at hlen2
    simp only [checksum_nmea, h]
    exact if_neg (hne _)

/-- C5 witness: the amended theorem applied to a byte string whose
asterisk is followed by no bytes at all. -/
theorem c5_amended_witness : checksum_nmea [36, 65, 42] = false :=
  c5_amended.2 [36, 65, 42] 2 (by decide) (by decide)

/-- Accumulator characterisation of the binary checksum fold: the first
register holds the running byte sum, the second the running sum of partial
sums. -/
theorem ubx_fold (l : List Nat) : ∀ a b : Nat,
    l.foldl (fun ab x => (ab.1 + x, ab.2 + ab.1 + x)) (a, b)
      = (a + l.sum, b + l.length * a + psumL l) := by
  induction l with
  | nil => intro a b; simp [psumL]
  | cons x xs ih =>
    intro a b
    simp only [List.foldl_cons, List.sum_cons, List.length_cons, psumL, ih]
    apply Prod.ext <;> simp <;> ring

/-- C6: the binary checksum pair is the byte sum mod 256 and the sum of
partial sums mod 256, total and deterministic; every packet builder of the
driver computes that checksum over class/id+length+payload only and
prepends the two header bytes afterwards, including the hardcoded VTG
disable packet whose literal trailing bytes equal the checksum of its body;
the rate packet for rate 4 and one measurement per solution reproduces the
golden vector. -/
theorem c6_theorem :
    (∀ l : List Nat, (ubx_ck l).1 = l.sum % 256 ∧ (ubx_ck l).2 = psumL l % 256)
    ∧ vtgPacket = [181, 98] ++ vtgBody ++ [(ubx_ck vtgBody).1, (ubx_ck vtgBody).2]
    ∧ gnss_stop_packet
        = [181, 98] ++ stopBody ++ [(ubx_ck stopBody).1, (ubx_ck stopBody).2]
    ∧ gnss_start_packet
        = [181, 98] ++ startBody ++ [(ubx_ck startBody).1, (ubx_ck startBody).2]
    ∧ nav5_packet = [181, 98] ++ nav5Body ++ [(ubx_ck nav5Body).1, (ubx_ck nav5Body).2]
    ∧ navx5_packet
        = [181, 98] ++ navx5Body ++ [(ubx_ck navx5Body).1, (ubx_ck navx5Body).2]
    ∧ gnss_packet = [181, 98] ++ gnssBody ++ [(ubx_ck gnssBody).1, (ubx_ck gnssBody).2]
    ∧ itfm_packet = [181, 98] ++ itfmBody ++ [(ubx_ck itfmBody).1, (ubx_ck itfmBody).2]
    ∧ save_packet = [181, 98] ++ saveBody ++ [(ubx_ck saveBody).1, (ubx_ck saveBody).2]
    ∧ rst_packet = [181, 98] ++ rstBody ++ [(ubx_ck rstBody).1, (ubx_ck rstBody).2]
    ∧ (∀ rate mps : Nat, 0 < rate →
        setrate_packet rate mps
          = [181, 98] ++ setrateBody rate mps
              ++ [(ubx_ck (setrateBody rate mps)).1, (ubx_ck (setrateBody rate mps)).2])
    ∧ setrate_packet 4 1 = [181, 98, 6, 8, 6, 0, 250, 0, 1, 0, 0, 0, 15, 148] := by
  refine ⟨fun l => ?_, by decide, rfl, rfl, rfl, rfl, rfl, rfl, rfl, rfl,
    fun rate mps _ => rfl, by decide⟩
  unfold ubx_ck
  rw [ubx_fold l 0 0]
  simp

/-- C6 witness: the packet-structure equation of the rate builder applied
at rate 4 with one measurement per solution. -/
theorem c6_witness :
    setrate_packet 4 1
      = [181, 98] ++ setrateBody 4 1
          ++ [(ubx_ck (setrateBody 4 1)).1, (ubx_ck (setrateBody 4 1)).2] :=
  c6_theorem.2.2.2.2.2.2.2.2.2.2.1 4 1 (by decide)

/-- C8: after an append the buffer holds at most 512 bytes and the
retained content is a suffix of the old buffer followed by the new bytes,
so truncation drops the oldest bytes only. -/
theorem c8_theorem (buf new : List Nat) :
    (update_buffer buf new).length ≤ 512
    ∧ update_buffer buf new <:+ buf ++ new := by
  unfold update_buffer
  constructor
  · split
    · rw [List.length_drop]; omega
    · omega
  · split
    · exact List.drop_suffix _ _
    · exact List.suffix_refl _

/-- C9: with a valid GLL sentence cached and no RMC sentence ever cached,
position yields a present (truthy) timestamp, velocity takes its KeyError
branch returning a 4-tuple of zeros, and getdata, which unpacks the
velocity result into three variables, raises an uncaught ValueError
(modelled none) instead of returning the position timestamp. -/
theorem c9_getdata_raises :
    getdata ⟨some exGLL, none, none, none⟩ = none
    ∧ position ⟨some exGLL, none, none, none⟩
        = some (Frac.ofInt 0, Frac.ofInt 0, Frac.ofInt 0,
            TSVal.str "09:27:50.00".toList)
    ∧ tsTruthy (TSVal.str "09:27:50.00".toList) = true
    ∧ velocity ⟨some exGLL, none, none, none⟩ = some VelRes.quad := by decide

/-- Characterisation of the starts-with test. -/
theorem swl_iff (pat : List Nat) : ∀ l : List Nat,
    swl pat l = true ↔ ∃ v, l = pat ++ v := by
  induction pat with
  | nil => intro l; simp [swl]
  | cons p ps ih =>
    intro l
    cases l with
    | nil => simp [swl]
    | cons x xs =>
      simp only [swl]
      by_cases hpx : p = x
      · subst hpx
        rw [if_pos rfl, ih]
        constructor
        · rintro ⟨v, rfl⟩
          exact ⟨v, rfl⟩
        · rintro ⟨v, hv⟩
          rw [List.cons_append] at hv
          injection hv with h1 h2
          exact ⟨v, h2⟩
      · rw [if_neg hpx]
        constructor
        · intro hF
          simp at hF
        · rintro ⟨v, hv⟩
          rw [List.cons_append] at hv
          injection hv with h1 h2
          exact absurd h1.symm hpx

/-- Characterisation of the contiguous-substring test. -/
theorem hasSub_iff (pat : List Nat) : ∀ l : List Nat,
    hasSub pat l = true ↔ ∃ u v, l = u ++ pat ++ v := by
  intro l
  induction l with
  | nil =>
    simp only [hasSub]
    rw [swl_iff]
    constructor
    · rintro ⟨v, hv⟩
      exact ⟨[], v, by simpa using hv⟩
    · rintro ⟨u, v, huv⟩
      have h2 : u ++ pat ++ v = [] := huv.symm
      rw [List.append_eq_nil] at h2
      obtain ⟨h3, hv⟩ := h2
      rw [List.append_eq_nil] at h3
      obtain ⟨hu, hp⟩ := h3
      exact ⟨[], by simp [hp]⟩
  | cons x xs ih =>
    simp only [hasSub, Bool.or_eq_true, ih, swl_iff]
    constructor
    · rintro (⟨v, hv⟩ | ⟨u, v, hv⟩)
      · exact ⟨[], v, by simpa using hv⟩
      · exact ⟨x :: u, v, by simp [hv]⟩
    · rintro ⟨u, v, hv⟩
      cases u with
      | nil =>
        left
        exact ⟨v, by simpa using hv⟩
      | cons b us =>
        right
        rw [List.cons_append, List.cons_append] at hv
        injection hv with h1 h2
        exact ⟨us, v, by simp [h2]⟩

/-- A substring of a list is a substring of any right extension. -/
theorem hasSub_append_right (pat l r : List Nat) (h : hasSub pat l = true) :
    hasSub pat (l ++ r) = true := by
  rw [hasSub_iff] at h ⊢
  obtain ⟨u, v, rfl⟩ := h
  exact ⟨u, v ++ r, by simp⟩

/-- A pattern absent from an extension is absent from the base. -/
theorem hasSub_false_of_append (pat l r : List Nat)
    (h : hasSub pat (l ++ r) = false) : hasSub pat l = false := by
  cases hl : hasSub pat l
  · rfl
  · exact absurd (hasSub_append_right pat l r hl) (by simp [h])

/-- The acknowledgment scan times out when neither marker ever appears in
the accumulated bytes. -/
theorem scan_none_aux (chunks : List (List Nat)) :
    ∀ acc : List Nat,
      hasSub ackPat (acc ++ List.flatten chunks) = false →
      hasSub nackPat (acc ++ List.flatten chunks) = false →
      ubx_ack_nack chunks acc = none := by
  induction chunks with
  | nil => intro acc _ _; rfl
  | cons ch rest ih =>
    intro acc hA hN
    have hj : acc ++ List.flatten (ch :: rest) = acc ++ ch ++ List.flatten rest := by
      rw [List.flatten_cons, List.append_assoc]
    rw [hj] at hA hN
    have hA2 := hasSub_false_of_append ackPat _ _ hA
    have hN2 := hasSub_false_of_append nackPat _ _ hN
    show (if hasSub ackPat (acc ++ ch) = true then some true
      else if hasSub nackPat (acc ++ ch) = true then some false
      else ubx_ack_nack rest (acc ++ ch)) = none
    rw [if_neg (by simp [hA2]), if_neg (by simp [hN2])]
    exact ih (acc ++ ch) hA hN

/-- The scan answers Acknowledged once the accumulated bytes contain the
ack marker without containing the nack marker. -/
theorem scan_true_aux (chunks : List (List Nat)) :
    ∀ (acc : List Nat) (i : Nat), i < chunks.length →
      hasSub ackPat (acc ++ joinTake chunks i) = true →
      hasSub nackPat (acc ++ joinTake chunks i) = false →
      ubx_ack_nack chunks acc = some true := by
  induction chunks with
  | nil => intro acc i hi _ _; simp at hi
  | cons ch rest ih =>
    intro acc i hi hA hN
    show (if hasSub ackPat (acc ++ ch) = true then some true
      else if hasSub nackPat (acc ++ ch) = true then some false
      else ubx_ack_nack rest (acc ++ ch)) = some true
    by_cases hA2 : hasSub ackPat (acc ++ ch) = true
    · rw [if_pos hA2]
    · cases i with
      | zero =>
        have hjt : acc ++ joinTake (ch :: rest) 0 = acc ++ ch := by
          simp [joinTake]
        rw [hjt] at hA
        exact absurd hA hA2
      | succ j =>
        have hjt : acc ++ joinTake (ch :: rest) (j + 1)
            = acc ++ ch ++ joinTake rest j := by
          simp [joinTake, List.take_succ_cons, List.flatten_cons, List.append_assoc]
        rw [hjt] at hA hN
        have hN2 : hasSub nackPat (acc ++ ch) = false :=
          hasSub_false_of_append _ _ _ hN
        rw [if_neg hA2, if_neg (by simp [hN2])]
        have hj : j < rest.length := by
          simp only [List.length_cons] at hi
          omega
        exact ih (acc ++ ch) j hj hA hN

/-- The scan answers NegativeAcknowledged once the accumulated bytes
contain the nack marker without containing the ack marker. -/
theorem scan_false_aux (chunks : List (List Nat)) :
    ∀ (acc : List Nat) (i : Nat), i < chunks.length →
      hasSub nackPat (acc ++ joinTake chunks i) = true →
      hasSub ackPat (acc ++ joinTake chunks i) = false →
      ubx_ack_nack chunks acc = some false := by
  induction chunks with
  | nil => intro acc i hi _ _; simp at hi
  | cons ch rest ih =>
    intro acc i hi hN hA
    show (if hasSub ackPat (acc ++ ch) = true then some true
      else if hasSub nackPat (acc ++ ch) = true then some false
      else ubx_ack_nack rest (acc ++ ch)) = some false
    cases i with
    | zero =>
      have hjt : acc ++ joinTake (ch :: rest) 0 = acc ++ ch := by
        simp [joinTake]
      rw [hjt] at hA hN
      rw [if_neg (by simp [hA]), if_pos hN]
    | succ j =>
      have hjt : acc ++ joinTake (ch :: rest) (j + 1)
          = acc ++ ch ++ joinTake rest j := by
        simp [joinTake, List.take_succ_cons, List.flatten_cons, List.append_assoc]
      rw [hjt] at hA hN
      have hA2 : hasSub ackPat (acc ++ ch) = false :=
        hasSub_false_of_append _ _ _ hA
      by_cases hN2 : hasSub nackPat (acc ++ ch) = true
      · rw [if_neg (by simp [hA2]), if_pos hN2]
      · rw [if_neg (by simp [hA2]), if_neg hN2]
        have hj : j < rest.length := by
          simp only [List.length_cons] at hi
          omega
        exact ih (acc ++ ch) j hj hN hA

/-- C4 (amended): during one ack wait, if neither marker pattern ever
appears in the accumulated bytes before the deadline the wait returns
Unknown; if at some read the accumulated bytes contain the ack pattern but
not the nack pattern it returns Acknowledged; if they contain the nack
pattern but not the ack pattern it returns NegativeAcknowledged.  When both
patterns appear in the same accumulated buffer the ack test is evaluated
first and wins. -/
theorem c4_amended (chunks : List (List Nat)) :
    ((hasSub ackPat (List.flatten chunks) = false
        ∧ hasSub nackPat (List.flatten chunks) = false) →
      ubx_ack_nack chunks [] = none)
    ∧ (∀ i, i < chunks.length → hasSub ackPat (joinTake chunks i) = true →
        hasSub nackPat (joinTake chunks i) = false →
        ubx_ack_nack chunks [] = some true)
    ∧ (∀ i, i < chunks.length → hasSub nackPat (joinTake chunks i) = true →
        hasSub ackPat (joinTake chunks i) = false →
        ubx_ack_nack chunks [] = some false) := by
  refine ⟨fun ⟨hA, hN⟩ => scan_none_aux chunks [] (by simpa using hA)
      (by simpa using hN),
    fun i hi hA hN => scan_true_aux chunks [] i hi (by simpa using hA)
      (by simpa using hN),
    fun i hi hN hA => scan_false_aux chunks [] i hi (by simpa using hN)
      (by simpa using hA)⟩

/-- C4 witness: the amended theorem applied to a read sequence whose
second chunk completes the ack marker. -/
theorem c4_amended_witness :
    ubx_ack_nack [[181, 98], [5, 1]] [] = some true :=
  (c4_amended [[181, 98], [5, 1]]).2.1 1 (by decide) (by decide) (by decide)

/-- C4 counterexample: a single read containing the nack marker followed by
the ack marker; the claim says a buffer containing the nack pattern
returns NegativeAcknowledged, but the ack test runs first and the wait
returns Acknowledged. -/
theorem c4_counterexample :
    hasSub nackPat [181, 98, 5, 0, 181, 98, 5, 1] = true
    ∧ ubx_ack_nack [[181, 98, 5, 0, 181, 98, 5, 1]] [] = some true
    ∧ ¬(ubx_ack_nack [[181, 98, 5, 0, 181, 98, 5, 1]] [] = some false) := by decide

/-- One extraction step on a buffer made of dollar-free junk, a
well-formed sentence and a remainder returns exactly the sentence and
leaves exactly the remainder. -/
theorem extract_wf (pre s1 post : List Nat) (hpre : 36 ∉ pre) (h : WFS s1) :
    extractStep (pre ++ s1 ++ post) = (some s1, post) := by
  obtain ⟨h36, h10, hno⟩ := h
  obtain ⟨d, hd⟩ : ∃ d, s1 = d ++ [10] := List.getLast?_eq_some_iff.mp h10
  have hdl : s1.dropLast = d := by
    rw [hd]
    exact List.dropLast_concat
  rw [hdl] at hno
  obtain ⟨tl, htl⟩ : ∃ tl, s1 = 36 :: tl := by
    cases s1 with
    | nil => simp at h36
    | cons x xs =>
      simp only [List.head?_cons, Option.some.injEq] at h36
      exact ⟨xs, by rw [h36]⟩
  have hf1 : findFrom 36 (pre ++ s1 ++ post) 0 = some pre.length := by
    unfold findFrom
    rw [List.drop_zero, List.append_assoc, findIdx1_append_of_not_mem _ hpre, htl]
    simp [findIdx1, List.cons_append]
  have hdrop : (pre ++ s1 ++ post).drop pre.length = s1 ++ post := by
    rw [List.append_assoc]
    exact List.drop_left pre (s1 ++ post)
  have hf2 : findFrom 10 (pre ++ s1 ++ post) pre.length
      = some (pre.length + d.length) := by
    unfold findFrom
    rw [hdrop, hd, List.append_assoc, findIdx1_append_of_not_mem _ hno]
    simp [findIdx1, List.singleton_append, Nat.add_comm]
  have hs1len : s1.length = d.length + 1 := by
    rw [hd]
    simp
  have e1 : ((pre ++ s1 ++ post).drop pre.length).take
      (pre.length + d.length + 1 - pre.length) = s1 := by
    rw [hdrop]
    have he : pre.length + d.length + 1 - pre.length = s1.length := by omega
    rw [he]
    exact List.take_left s1 post
  have e2 : (pre ++ s1 ++ post).drop (pre.length + d.length + 1) = post := by
    have he : pre.length + d.length + 1 = (pre ++ s1).length := by
      simp [hs1len]
      omega
    rw [he]
    exact List.drop_left (pre ++ s1) post
  simp only [extractStep, hf1, hf2, e1, e2]

/-- One extraction step on a buffer whose first dollar byte is never
followed by a newline byte (a newline may still precede it) returns
nothing and leaves the buffer unchanged; every buffer containing a dollar
byte decomposes this way around its first occurrence. -/
theorem extract_no_newline (pre rest : List Nat) (hpre : 36 ∉ pre)
    (hr : 10 ∉ rest) :
    extractStep (pre ++ 36 :: rest) = (none, pre ++ 36 :: rest) := by
  have hf1 : findFrom 36 (pre ++ 36 :: rest) 0 = some pre.length := by
    unfold findFrom
    rw [List.drop_zero, findIdx1_append_of_not_mem _ hpre]
    simp [findIdx1]
  have hf2 : findFrom 10 (pre ++ 36 :: rest) pre.length = none := by
    unfold findFrom
    rw [List.drop_left pre (36 :: rest)]
    have hm : 10 ∉ (36 : Nat) :: rest := by
      intro hmem
      rcases List.mem_cons.mp hmem with h1 | h2
      · exact absurd h1 (by decide)
      · exact hr h2
    rw [(findIdx1_eq_none _ _).mpr hm]
    rfl
  simp only [extractStep, hf1, hf2]

/-- C7: an extraction step returns the span from the first dollar marker
through the first newline after it, removing that span and everything
before it, whenever both are present; when the buffer has no dollar byte,
or no newline byte at or after its first dollar byte (in particular when
the only newline precedes the first dollar), nothing is returned and the
buffer is unchanged; consequently on a buffer holding exactly two
well-formed sentences, two successive extractions return them in order
and a third, on the then-empty buffer, returns nothing. -/
theorem c7_theorem :
    (∀ pre s1 post : List Nat, 36 ∉ pre → WFS s1 →
        extractStep (pre ++ s1 ++ post) = (some s1, post))
    ∧ (∀ buf : List Nat, 36 ∉ buf → extractStep buf = (none, buf))
    ∧ (∀ buf : List Nat, 10 ∉ buf → extractStep buf = (none, buf))
    ∧ (∀ pre rest : List Nat, 36 ∉ pre → 10 ∉ rest →
        extractStep (pre ++ 36 :: rest) = (none, pre ++ 36 :: rest))
    ∧ (∀ s1 s2 : List Nat, WFS s1 → WFS s2 →
        extractStep (s1 ++ s2) = (some s1, s2)
        ∧ extractStep s2 = (some s2, [])
        ∧ extractStep ([] : List Nat) = (none, [])) := by
  refine ⟨extract_wf, fun buf h => ?_, fun buf h => ?_, extract_no_newline,
    fun s1 s2 h1 h2 => ?_⟩
  · have hf : findFrom 36 buf 0 = none := by
      unfold findFrom
      rw [List.drop_zero, (findIdx1_eq_none _ _).mpr h]
      rfl
    simp [extractStep, hf]
  · unfold extractStep
    cases hf : findFrom 36 buf 0 with
    | none => rfl
    | some s =>
      have h10 : findFrom 10 buf s = none := by
        unfold findFrom
        have hm : 10 ∉ buf.drop s := fun m => h (List.drop_subset s buf m)
        rw [(findIdx1_eq_none _ _).mpr hm]
        rfl
      simp [h10]
  · refine ⟨?_, ?_, rfl⟩
    · have he := extract_wf [] s1 s2 (by simp) h1
      simpa using he
    · have he := extract_wf [] s2 [] (by simp) h2
      simpa using he

/-- C7 witness: an unchanged buffer whose only newline precedes its first
dollar byte, and two concrete well-formed sentences drained in order. -/
theorem c7_witness :
    extractStep [10, 36] = (none, [10, 36])
    ∧ (extractStep ([36, 65, 10] ++ [36, 66, 10]) = (some [36, 65, 10], [36, 66, 10])
      ∧ extractStep [36, 66, 10] = (some [36, 66, 10], [])
      ∧ extractStep ([] : List Nat) = (none, [])) :=
  ⟨c7_theorem.2.2.2.1 [10] [] (by decide) (by decide),
   c7_theorem.2.2.2.2 [36, 65, 10] [36, 66, 10] ⟨rfl, rfl, by decide⟩
     ⟨rfl, rfl, by decide⟩⟩

/-- C10: with a GLL sentence carrying validity flag A cached but no GSA
sentence ever cached, position returns the zero placeholders for latitude,
longitude and position error together with the GLL timestamp; likewise
altitude returns zero placeholders with the GGA timestamp when GGA is
cached but GSA is not. -/
theorem c10_theorem :
    (∀ (c : Cache) (g t : List Char), c.gll = some g → c.gsa = none →
        (splitComma g).get? 5 = some t →
        (splitComma g).get? 6 = some ("A".toList) →
        position c = some (Frac.ofInt 0, Frac.ofInt 0, Frac.ofInt 0, tsOf t))
    ∧ (∀ (c : Cache) (g t : List Char), c.gga = some g → c.gsa = none →
        (splitComma g).get? 1 = some t →
        altitude c = some (Frac.ofInt 0, Frac.ofInt 0, Frac.ofInt 0, tsOf t)) := by
  constructor
  · intro c g t hg hs h5 _
    simp only [position, hg, hs, h5, Option.some_bind]
    rfl
  · intro c g t hg hs h1
    simp only [altitude, hg, hs, h1, Option.some_bind]
    rfl

/-- C10 witness: the theorem applied to a cache holding the example GLL
and GGA sentences and no GSA sentence. -/
theorem c10_witness :
    position ⟨some exGLL, none, some exGGA, none⟩
        = some (Frac.ofInt 0, Frac.ofInt 0, Frac.ofInt 0, tsOf ("092750.00".toList))
    ∧ altitude ⟨some exGLL, none, some exGGA, none⟩
        = some (Frac.ofInt 0, Frac.ofInt 0, Frac.ofInt 0, tsOf ("092750.00".toList)) :=
  ⟨c10_theorem.1 _ exGLL ("092750.00".toList) rfl rfl (by decide) (by decide),
   c10_theorem.2 _ exGGA ("092750.00".toList) rfl rfl (by decide)⟩

/-- C1: decoding the example GLL sentence with hemisphere letters N and W
and a cached GSA sentence yields a negative latitude -53.361215 (the code
compares the latitude hemisphere with the letter E instead of N, so North
is not treated as positive), longitude -6.513836..., position error 4.3,
and the timestamp string 09:27:50.00, which retains the fractional
seconds. -/
theorem c1_gll_example :
    position ⟨some exGLL, some exGSA, none, none⟩
        = some (⟨-32016729, 600000⟩, ⟨-3908302, 600000⟩, ⟨4300, 1000⟩,
            TSVal.str ("09:27:50.00".toList))
    ∧ Frac.val ⟨-32016729, 600000⟩ < 0
    ∧ Frac.val ⟨-32016729, 600000⟩ = -(10672243 / 200000 : ℚ)
    ∧ Frac.val ⟨-3908302, 600000⟩ = -(1954151 / 300000 : ℚ)
    ∧ Frac.val ⟨4300, 1000⟩ = 43 / 10 := by
  refine ⟨by decide, ?_, ?_, ?_, ?_⟩ <;> norm_num [Frac.val]

end GPS
